import Mathlib

/-!
Verification of the uniformity-analysis reference model encoded by the
WebGPU CTS test oracles in
`src/webgpu/shader/execution/expression/call/builtin/quadBroadcast.spec.ts`
(which also carries the `uniformity.spec.ts` oracle tables), together with
the pure checker function `checkFragment` of the same file.

The uniformity analysis engine itself (a WGSL compiler pass) is not part of
this repository; only its behavioural oracle tables are.  Definitions marked
`Modelled from the spec:` embed the analysis as described by the repository's
specification, refined where the oracle tables cited by the claims require
it, and every such definition is validated below against the concrete oracle
entries (`kShortCircuitExpressionCases`, `kFuncVarCases`, `kPointerCases`,
`kConditions`, `expectedUniformity`).
-/

/-- The two-point uniformity lattice: a value or execution tag is `uniform`
when it is identical across all invocations of the execution group, and
`divergent` otherwise. -/
inductive Tag where
  | uniform
  | divergent
deriving DecidableEq, Repr

/-- Lattice meet: `uniform` only when both sides are `uniform`. -/
def Tag.meet : Tag → Tag → Tag
  | .uniform, .uniform => .uniform
  | _, _ => .divergent

/-- Boolean test for the `divergent` tag. -/
def Tag.isDivergent : Tag → Bool
  | .uniform => false
  | .divergent => true

theorem Tag.meet_idem (a : Tag) : Tag.meet a a = a := by
  cases a <;> rfl

theorem Tag.meet_uniform_right (a : Tag) : Tag.meet a .uniform = a := by
  cases a <;> rfl

theorem Tag.meet_uniform_left (a : Tag) : Tag.meet .uniform a = a := by
  cases a <;> rfl

theorem Tag.meet_divergent_right (a : Tag) : Tag.meet a .divergent = .divergent := by
  cases a <;> rfl

/-- Modelled from the spec: expression forms of the uniformity analysis
(the expression evaluator of the WGSL analysis is not under `src/`; the
shapes here are the ones generated by `generateCondition` and by
`kShortCircuitExpressionCases`).
`lit` is a literal; `constRead` reads a module-scope `const`/`override`/
uniform `let`; `privateRead` reads a `var<private>` binding
(per-invocation, divergent); `storageRORead i` reads `ro_buffer[i]` from
`var<storage, read>`; `storageRWRead i` reads `rw_buffer[i]` from
`var<storage, read_write>`; `binop` is a non-short-circuit binary operator
such as `==`; `scOr`/`scAnd` are the short-circuit operators; `collective`
is a collective-operation call such as `textureSample` with the given
argument expression. -/
inductive UExpr where
  | lit : Nat → UExpr
  | constRead : UExpr
  | privateRead : UExpr
  | storageRORead : UExpr → UExpr
  | storageRWRead : UExpr → UExpr
  | binop : UExpr → UExpr → UExpr
  | scOr : UExpr → UExpr → UExpr
  | scAnd : UExpr → UExpr → UExpr
  | collective : UExpr → UExpr
deriving DecidableEq, Repr

/-- Modelled from the spec: the uniformity tag of an expression's result.
Literals and module-scope constants and read-only/uniform storage reads are
`uniform`; a read-write storage read and a per-invocation binding are
`divergent`; an n-ary operator yields the meet of its operands; the
short-circuit operators yield `meet leftTag rightTag`; a collective call's
result follows its argument tags. -/
def uexprTag : UExpr → Tag
  | .lit _ => .uniform
  | .constRead => .uniform
  | .privateRead => .divergent
  | .storageRORead i => uexprTag i
  | .storageRWRead _ => .divergent
  | .binop l r => Tag.meet (uexprTag l) (uexprTag r)
  | .scOr l r => Tag.meet (uexprTag l) (uexprTag r)
  | .scAnd l r => Tag.meet (uexprTag l) (uexprTag r)
  | .collective a => uexprTag a

/-- True when the expression contains no collective-operation call site. -/
def collectiveFree : UExpr → Bool
  | .lit _ => true
  | .constRead => true
  | .privateRead => true
  | .storageRORead i => collectiveFree i
  | .storageRWRead i => collectiveFree i
  | .binop l r => collectiveFree l && collectiveFree r
  | .scOr l r => collectiveFree l && collectiveFree r
  | .scAnd l r => collectiveFree l && collectiveFree r
  | .collective _ => false

/-- Modelled from the spec: whether analyzing the expression under the given
ambient execution-uniformity tag reports a uniformity violation.  A
collective call site is a violation exactly when the ambient execution
uniformity is `divergent`.  For `scOr`/`scAnd` the right operand is
analyzed under `meet exec leftTag`: when the left operand's tag is
divergent the right operand sits in divergent control flow. -/
def exprViol : UExpr → Tag → Bool
  | .lit _, _ => false
  | .constRead, _ => false
  | .privateRead, _ => false
  | .storageRORead i, e => exprViol i e
  | .storageRWRead i, e => exprViol i e
  | .binop l r, e => exprViol l e || exprViol r e
  | .scOr l r, e => exprViol l e || exprViol r (Tag.meet e (uexprTag l))
  | .scAnd l r, e => exprViol l e || exprViol r (Tag.meet e (uexprTag l))
  | .collective a, e => e.isDivergent || exprViol a e

/-- Verdict of compiling a shader whose body is `let x = e;` alone (the
shape of the `or_uniform_first_nonuniform`-style oracle cases): `true`
means no violation, i.e. `expectCompileResult true`. -/
def scVerdict (e : UExpr) : Bool :=
  !(exprViol e .uniform)

/-- Verdict of compiling `let x = e; if x { textureSample(...) }` (the
shape of the `or_uniform_uniform`-style oracle cases): no violation from
`e` itself and the guarded collective call requires `x`'s tag uniform. -/
def letIfVerdict (e : UExpr) : Bool :=
  !(exprViol e .uniform) && !(uexprTag e).isDivergent

/-- Verdict of compiling `if c { <collective op> }` at function scope (the
shape of the `basics` test of the oracle): the branch's execution
uniformity is `meet ambient condTag` with a uniform ambient. -/
def ifGuardVerdict (c : UExpr) : Bool :=
  !(exprViol c .uniform || (Tag.meet .uniform (uexprTag c)).isDivergent)

/-- One entry of the `kShortCircuitExpressionCases` oracle table: the
embedded expression of its `code` field and its `uniform` field. -/
structure ShortCircuitCase where
  expr : UExpr
  uniform : Bool

/-- Oracle entry `or_uniform_first_nonuniform`:
`textureSample(t, s, vec2f(0,0)).x == 0 || nonuniform_cond`, expected to
compile (lines 2082-2087). -/
def or_uniform_first_nonuniform : ShortCircuitCase :=
  ⟨.scOr (.binop (.collective (.lit 0)) (.lit 0)) .privateRead, true⟩

/-- Oracle entry `or_uniform_second_nonuniform`:
`nonuniform_cond || textureSample(t, s, vec2f(0,0)).x == 0`, expected to be
rejected (lines 2088-2093). -/
def or_uniform_second_nonuniform : ShortCircuitCase :=
  ⟨.scOr .privateRead (.binop (.collective (.lit 0)) (.lit 0)), false⟩

/-- Oracle entry `and_uniform_first_nonuniform` (lines 2130-2135). -/
def and_uniform_first_nonuniform : ShortCircuitCase :=
  ⟨.scAnd (.binop (.collective (.lit 0)) (.lit 0)) .privateRead, true⟩

/-- Oracle entry `and_uniform_second_nonuniform` (lines 2136-2141). -/
def and_uniform_second_nonuniform : ShortCircuitCase :=
  ⟨.scAnd .privateRead (.binop (.collective (.lit 0)) (.lit 0)), false⟩

/-- Oracle entry `or_uniform_uniform`:
`let x = uniform_cond || uniform_cond; if x { textureSample }` expected to
compile (lines 2046-2054). -/
def or_uniform_uniform : ShortCircuitCase :=
  ⟨.scOr .constRead .constRead, true⟩

/-- Oracle entry `or_nonuniform_nonuniform` (lines 2073-2081). -/
def or_nonuniform_nonuniform : ShortCircuitCase :=
  ⟨.scOr .privateRead .privateRead, false⟩

/-- Oracle entry `and_nonuniform_nonuniform` (lines 2121-2129). -/
def and_nonuniform_nonuniform : ShortCircuitCase :=
  ⟨.scAnd .privateRead .privateRead, false⟩

theorem exprViol_of_collectiveFree (e : UExpr) :
    collectiveFree e = true → ∀ ex : Tag, exprViol e ex = false := by
  induction e with
  | lit n => intro _ ex; rfl
  | constRead => intro _ ex; rfl
  | privateRead => intro _ ex; rfl
  | storageRORead i ih =>
      intro h ex
      exact ih h ex
  | storageRWRead i ih =>
      intro h ex
      exact ih h ex
  | binop l r ihl ihr =>
      intro h ex
      simp only [collectiveFree, Bool.and_eq_true] at h
      simp [exprViol, ihl h.1, ihr h.2]
  | scOr l r ihl ihr =>
      intro h ex
      simp only [collectiveFree, Bool.and_eq_true] at h
      simp [exprViol, ihl h.1, ihr h.2]
  | scAnd l r ihl ihr =>
      intro h ex
      simp only [collectiveFree, Bool.and_eq_true] at h
      simp [exprViol, ihl h.1, ihr h.2]
  | collective a ih =>
      intro h
      simp [collectiveFree] at h

/-- Modelled from the spec: value expressions assigned to the tracked
function variable `x` in the `kFuncVarCases` oracle programs.
`uniformVal i` embeds `uniform_value[i]` (a `var<storage>` read-only
binding, tag `uniform`); `nonuniformVal i` embeds `nonuniform_value[i]`
(a `var<storage, read_write>` binding, tag `divergent`). -/
inductive VVal where
  | uniformVal : Nat → VVal
  | nonuniformVal : Nat → VVal
deriving DecidableEq, Repr

/-- Tag of a value expression. -/
def VVal.tag : VVal → Tag
  | .uniformVal _ => .uniform
  | .nonuniformVal _ => .divergent

/-- Modelled from the spec: conditions appearing in the `kFuncVarCases`
oracle programs.  `uniformCond` embeds the module-scope
`const uniform_cond : bool`; `nonuniformCond` embeds the
`var<private> nonuniform_cond` binding; `readXGtZero` embeds `x > 0`,
whose tag is the current state of `x`. -/
inductive SCond where
  | uniformCond
  | nonuniformCond
  | readXGtZero
deriving DecidableEq, Repr

/-- Tag of a condition given the current state of `x`. -/
def SCond.tag : SCond → Tag → Tag
  | .uniformCond, _ => .uniform
  | .nonuniformCond, _ => .divergent
  | .readXGtZero, st => st

/-- Modelled from the spec: the statement forms used by the
`kFuncVarCases` oracle programs over one tracked function variable `x`.
`assign v` is `x = v`; `compound v` is `x op= v`; `ifs c t e` is
`if c { t } else { e }`; `loopC body cc` is
`loop { body } continuing { break if cc }` (`cc = none` when the loop has
no continuing block); `brk` is `break`; `ret` is `return`; `sample` is a
collective-operation call site (`textureSample`). -/
inductive FStmt where
  | skip
  | assign : VVal → FStmt
  | compound : VVal → FStmt
  | seq : FStmt → FStmt → FStmt
  | ifs : SCond → FStmt → FStmt → FStmt
  | loopC : FStmt → Option SCond → FStmt
  | brk
  | ret
  | sample
deriving DecidableEq, Repr

/-- Analysis outcome of a statement: `normal` is the state of `x` on
normal fall-through (`none` when every path ends in `break` or `return`),
`brk` is the merged state of `x` at the `break` sites escaping to the
nearest enclosing loop, and `viol` records whether a collective call was
reached under divergent execution uniformity. -/
structure SOut where
  normal : Option Tag
  brk : Option Tag
  viol : Bool
deriving DecidableEq, Repr

/-- Join of two optional states: a statically unreachable side (`none`)
contributes no information to the merge. -/
def joinT : Option Tag → Option Tag → Option Tag
  | some a, some b => some (Tag.meet a b)
  | some a, none => some a
  | none, b => b

/-- Modelled from the spec: one loop iteration.  `ab st exec` analyzes the
loop body from state `st` under execution tag `exec`.  Returns the
back-edge state (`none` when the body never reaches the continuing
block), the merged loop-exit state contributed by this iteration, and the
violation flag.  A `break if cc` in the continuing block contributes
`meet stateAtBreak (tag cc)` to the exit state: invocations leave the
loop on different iterations when the back-edge condition is divergent,
which is what the oracle entry `loop_body_nonuniform_cond` checks. -/
def loopIterG (ab : Tag → Tag → SOut) (cc : Option SCond) (st exec : Tag) :
    Option Tag × Option Tag × Bool :=
  let ob := ab st exec
  match ob.normal with
  | none => (none, ob.brk, ob.viol)
  | some stc =>
    match cc with
    | none => (some stc, ob.brk, ob.viol)
    | some c => (some stc, joinT ob.brk (some (Tag.meet stc (SCond.tag c stc))), ob.viol)

/-- Modelled from the spec: fixed-point iteration of a loop over the
finite lattice.  Each round analyzes one iteration, merges the back-edge
state into the entry state and degrades the body's execution uniformity
by the continuing condition's tag; it stops when both are stable.  The
fuel bound is reached only beyond the lattice height and then answers
conservatively. -/
def loopGoG (ab : Tag → Tag → SOut) (cc : Option SCond) :
    Nat → Tag → Tag → Option Tag → Bool → SOut
  | 0, _, _, exitAcc, _ => ⟨joinT exitAcc (some .divergent), none, true⟩
  | fuel + 1, st, exec, exitAcc, violAcc =>
    let r := loopIterG ab cc st exec
    let exitAcc2 := joinT exitAcc r.2.1
    let violAcc2 := violAcc || r.2.2
    match r.1 with
    | none => ⟨exitAcc2, none, violAcc2⟩
    | some back =>
      let st2 := Tag.meet st back
      let exec2 := match cc with
        | none => exec
        | some c => Tag.meet exec (SCond.tag c st2)
      if st2 = st ∧ exec2 = exec then ⟨exitAcc2, none, violAcc2⟩
      else loopGoG ab cc fuel st2 exec2 exitAcc2 violAcc2

/-- Modelled from the spec: the statement analyzer.  `analyzeS s st exec`
computes the outcome of statement `s` from state `st` of `x` under
ambient execution-uniformity `exec`.  Sequencing skips statements made
unreachable by an unconditional escape; an `if` analyzes both branches
under `meet exec condTag` and joins only the branches that fall through;
a loop iterates to a fixed point; `brk` records `meet st exec` for the
enclosing loop's exit merge; `ret` contributes to no later join. -/
def analyzeS : FStmt → Tag → Tag → SOut
  | .skip, st, _ => ⟨some st, none, false⟩
  | .assign v, _, _ => ⟨some v.tag, none, false⟩
  | .compound v, st, _ => ⟨some (Tag.meet st v.tag), none, false⟩
  | .seq a b, st, exec =>
    let oa := analyzeS a st exec
    match oa.normal with
    | none => oa
    | some st1 =>
      let ob := analyzeS b st1 exec
      ⟨ob.normal, joinT oa.brk ob.brk, oa.viol || ob.viol⟩
  | .ifs c t e, st, exec =>
    let ec := Tag.meet exec (SCond.tag c st)
    let ot := analyzeS t st ec
    let oe := analyzeS e st ec
    ⟨joinT ot.normal oe.normal, joinT ot.brk oe.brk, ot.viol || oe.viol⟩
  | .loopC body cc, st, exec =>
    let bUU := analyzeS body .uniform .uniform
    let bUD := analyzeS body .uniform .divergent
    let bDU := analyzeS body .divergent .uniform
    let bDD := analyzeS body .divergent .divergent
    let ab := fun s e =>
      match s, e with
      | Tag.uniform, Tag.uniform => bUU
      | Tag.uniform, Tag.divergent => bUD
      | Tag.divergent, Tag.uniform => bDU
      | Tag.divergent, Tag.divergent => bDD
    loopGoG ab cc 4 st exec none false
  | .brk, st, exec => ⟨none, some (Tag.meet st exec), false⟩
  | .ret, _, _ => ⟨none, none, false⟩
  | .sample, st, exec => ⟨some st, none, exec.isDivergent⟩

/-- The three variable initializers of the `kVarInit` oracle table:
no initializer, `= uniform_value[3]`, `= nonuniform_value[3]`. -/
inductive InitKind where
  | no_init
  | uniform
  | nonuniform
deriving DecidableEq, Repr

/-- Initial state of `x` for each initializer: a variable never written is
`uniform` (the language-defined default value is identical for all
invocations). -/
def initTag : InitKind → Tag
  | .no_init => .uniform
  | .uniform => .uniform
  | .nonuniform => .divergent

/-- Modelled from the spec: compile verdict of the `function_variables`
test scaffold `var x <init>; <s>; if x > 0 { textureSample(...) }` under a
uniform ambient: `true` means no uniformity violation anywhere, i.e.
`expectCompileResult true`. -/
def verdictS (i : InitKind) (s : FStmt) : Bool :=
  !(analyzeS (.seq s (.ifs .readXGtZero .sample .skip)) (initTag i) .uniform).viol

/-- The `uniform` classification of a `kFuncVarCases` entry: `always`
(uniform regardless of initializer), `init` (uniform only if the state
going in was uniform), `never`. -/
inductive UniClass where
  | always
  | init
  | never
deriving DecidableEq, Repr

/-- The oracle's `expectedUniformity` function (lines 1171-1180): class
`always` expects success for every initializer, class `init` only for
`no_init` and `uniform`, class `never` for none. -/
def expectedUniformity : UniClass → InitKind → Bool
  | .always, _ => true
  | .init, .no_init => true
  | .init, .uniform => true
  | .init, .nonuniform => false
  | .never, _ => false

/-- One entry of the `kFuncVarCases` oracle table: the embedded
`assignment` program and the `uniform` classification. -/
structure FuncVarCase where
  assignment : FStmt
  uniform : UniClass

/-- Modelled from the spec: state of the pointer and alias tracker.
Variables are identified by natural numbers and each variable's storage is
its own address class (also identified by the variable's number).
`store c` is the contents uniformity tag of address class `c`; `env p` is
the address class designated by pointer binding `p` (`none` while `p` is
unbound). -/
structure AliasState where
  store : Nat → Tag
  env : Nat → Option Nat

/-- Modelled from the spec: the operations of the `kPointerCases` oracle
programs.  `takeAddr p x` is `let p = &x`; `copyPtr q p` is `let q = p`
(aliasing copies the designated class); `writeVar x t` is `x = e` with
`t` the tag of `e`; `writeThrough p t` is `*p = e`. -/
inductive POp where
  | takeAddr : Nat → Nat → POp
  | copyPtr : Nat → Nat → POp
  | writeVar : Nat → Tag → POp
  | writeThrough : Nat → Tag → POp
deriving DecidableEq, Repr

/-- Modelled from the spec: effect of one operation.  A write through a
pointer updates the contents tag of the pointer's whole address class, so
it is observed through every alias of that class and through the variable
itself.  Writing through an unbound pointer is a no-op (such a program is
rejected before the analysis runs). -/
def applyOp : POp → AliasState → AliasState
  | .takeAddr p x, s => ⟨s.store, fun n => if n = p then some x else s.env n⟩
  | .copyPtr q p, s => ⟨s.store, fun n => if n = q then s.env p else s.env n⟩
  | .writeVar x t, s => ⟨fun c => if c = x then t else s.store c, s.env⟩
  | .writeThrough p t, s =>
    match s.env p with
    | some c => ⟨fun cc => if cc = c then t else s.store cc, s.env⟩
    | none => s

/-- Run a straight-line pointer program. -/
def runOps (ops : List POp) (s : AliasState) : AliasState :=
  ops.foldl (fun st op => applyOp op st) s

/-- Contents tag observed by reading variable `x` directly. -/
def readVarTag (s : AliasState) (x : Nat) : Tag :=
  s.store x

/-- Contents tag observed by dereferencing pointer `p`. -/
def readPtrTag (s : AliasState) (p : Nat) : Option Tag :=
  (s.env p).map s.store

/-- True for the operations that write memory (`writeVar`/`writeThrough`). -/
def POp.isWrite : POp → Bool
  | .writeVar _ _ => true
  | .writeThrough _ _ => true
  | _ => false

/-- Address class targeted by a write, resolved against state `s`. -/
def writeTarget (s : AliasState) : POp → Option Nat
  | .writeVar x _ => some x
  | .writeThrough p _ => s.env p
  | _ => none

/-- Tag written by a write operation. -/
def writeTag : POp → Option Tag
  | .writeVar _ t => some t
  | .writeThrough _ t => some t
  | _ => none

/-- Initial analysis state of the `pointers` test scaffold: every variable
is default-initialized (tag `uniform`, the default value is identical for
all invocations) and no pointer binding is live yet.  `func_scalar` is
variable 0. -/
def ptrInit : AliasState :=
  ⟨fun _ => .uniform, fun _ => none⟩

/-- One entry of the `kPointerCases` oracle table: the embedded `code`
operations and the `uniform` field; the `contents` check passes exactly
when the final read observes tag `uniform`. -/
structure PointerCase where
  ops : List POp
  uniform : Bool

/-- Oracle entry `contents_scalar_uniform2` (lines 955-962):
`func_scalar = nonuniform_value; let ptr = &func_scalar; func_scalar = 0;
let test_val = *ptr;` — the final read observes the literal write. -/
def contents_scalar_uniform2 : PointerCase :=
  ⟨[.writeVar 0 .divergent, .takeAddr 1 0, .writeVar 0 .uniform], true⟩

/-- Oracle entry `contents_scalar_uniform3` (lines 963-970):
`let ptr = &func_scalar; func_scalar = nonuniform_value;
func_scalar = uniform_value; let test_val = *ptr;`. -/
def contents_scalar_uniform3 : PointerCase :=
  ⟨[.takeAddr 1 0, .writeVar 0 .divergent, .writeVar 0 .uniform], true⟩

/-- Oracle entry `contents_scalar_alias_nonuniform3` (lines 1008-1015):
`let p = &func_scalar; let ptr = p; *p = nonuniform_value;
let test_val = *ptr;` — pointer `p` is 1, `ptr` is 2. -/
def contents_scalar_alias_nonuniform3 : PointerCase :=
  ⟨[.takeAddr 1 0, .copyPtr 2 1, .writeThrough 1 .divergent], false⟩

/-- Oracle entry `contents_scalar_alias_nonuniform4` (lines 1016-1022):
`let p = &func_scalar; func_scalar = nonuniform_value;
let test_val = *p;`. -/
def contents_scalar_alias_nonuniform4 : PointerCase :=
  ⟨[.takeAddr 1 0, .writeVar 0 .divergent], false⟩

/-- Oracle entry `contents_scalar_alias_nonuniform5` (lines 1023-1029):
`let p = &func_scalar; *p = nonuniform_value;
let test_val = func_scalar;` — the read is through the variable itself. -/
def contents_scalar_alias_nonuniform5 : PointerCase :=
  ⟨[.takeAddr 1 0, .writeThrough 1 .divergent], false⟩

theorem applyOp_write_env (op : POp) (s : AliasState) (h : op.isWrite = true) :
    (applyOp op s).env = s.env := by
  cases op with
  | takeAddr p x => simp [POp.isWrite] at h
  | copyPtr q p => simp [POp.isWrite] at h
  | writeVar x t => rfl
  | writeThrough p t =>
      simp only [applyOp]
      cases s.env p <;> rfl

theorem applyOp_write_store_other (op : POp) (s : AliasState) (c : Nat)
    (h : writeTarget s op ≠ some c) :
    (applyOp op s).store c = s.store c := by
  cases op with
  | takeAddr p x => rfl
  | copyPtr q p => rfl
  | writeVar x t =>
      simp only [writeTarget] at h
      simp only [applyOp]
      rw [if_neg]
      intro hc
      exact h (by rw [hc])
  | writeThrough p t =>
      simp only [writeTarget] at h
      simp only [applyOp]
      cases henv : s.env p with
      | none => rfl
      | some cls =>
          simp only
          rw [if_neg]
          intro hc
          rw [henv] at h
          exact h (by rw [hc])

theorem runOps_writes_frame (ws : List POp) (s : AliasState) (c : Nat)
    (hw : ∀ op ∈ ws, op.isWrite = true)
    (hc : ∀ op ∈ ws, writeTarget s op ≠ some c) :
    (runOps ws s).store c = s.store c ∧ (runOps ws s).env = s.env := by
  induction ws generalizing s with
  | nil => exact ⟨rfl, rfl⟩
  | cons op rest ih =>
      have hop : op.isWrite = true := hw op (List.mem_cons_self op rest)
      have hopc : writeTarget s op ≠ some c := hc op (List.mem_cons_self op rest)
      have henv : (applyOp op s).env = s.env := applyOp_write_env op s hop
      have htarget : ∀ op2 ∈ rest, writeTarget (applyOp op s) op2 ≠ some c := by
        intro op2 hmem
        have : writeTarget (applyOp op s) op2 = writeTarget s op2 := by
          cases op2 with
          | takeAddr p x => rfl
          | copyPtr q p => rfl
          | writeVar x t => rfl
          | writeThrough p t => simp [writeTarget, henv]
        rw [this]
        exact hc op2 (List.mem_cons_of_mem op hmem)
      have ihr := ih (applyOp op s)
        (fun op2 hmem => hw op2 (List.mem_cons_of_mem op hmem)) htarget
      refine ⟨?_, ?_⟩
      · rw [runOps, List.foldl_cons]
        have : (runOps rest (applyOp op s)).store c = (applyOp op s).store c := ihr.1
        rw [runOps] at this
        rw [this, applyOp_write_store_other op s c hopc]
      · rw [runOps, List.foldl_cons]
        have : (runOps rest (applyOp op s)).env = (applyOp op s).env := ihr.2
        rw [runOps] at this
        rw [this, henv]

/-- Structured form of the `Error` values returned by `checkFragment`
(the source builds message strings; the payloads here carry the numbers
interpolated into them).  `insufficientSize w h minW minH` is the
`Insufficient framebuffer size` error naming the actual size and the
minimum `[3w x 3h]`; `incorrectRow`/`incorrectCol` are the per-texel
mismatch errors (the source's column message interpolates `expect_row`,
mirrored here). -/
inductive FragError where
  | insufficientSize : Nat → Nat → Nat → Nat → FragError
  | incorrectRow : Nat → Nat → Nat → Nat → FragError
  | incorrectCol : Nat → Nat → Nat → Nat → FragError
deriving DecidableEq, Repr

/-- Body of `checkFragment`'s nested loop for one `(row, col)` cell
(lines 421-470 of the source): skip the quads that may extend into helper
invocations, compute the expected broadcast source coordinates for the
quad id `broadcast`, and compare with the framebuffer data at the texel
offset.  The `Uint32Array` argument `data` is abstracted by its indexing
function.  `row - 1` and `col - 1` are only taken when the coordinate is
odd, so natural subtraction agrees with the source. -/
def checkCell (data : Nat → Nat) (uintsPerRow uintsPerTexel : Nat)
    (width height broadcast row col : Nat) : Option FragError :=
  let offset := uintsPerRow * row + col * uintsPerTexel
  let rowOdd := row % 2 == 1
  let colOdd := col % 2 == 1
  let maxRow := if rowOdd then row else row + 1
  let maxCol := if colOdd then col else col + 1
  if maxRow == height - 1 || maxCol == width - 1 then none
  else
    let expectRow :=
      match broadcast with
      | 0 => if rowOdd then row - 1 else row
      | 1 => if rowOdd then row - 1 else row
      | 2 => if rowOdd then row else row + 1
      | 3 => if rowOdd then row else row + 1
      | _ => row
    let expectCol :=
      match broadcast with
      | 0 => if colOdd then col - 1 else col
      | 1 => if colOdd then col else col + 1
      | 2 => if colOdd then col - 1 else col
      | 3 => if colOdd then col else col + 1
      | _ => col
    let rowBroadcast := data (offset + 1)
    let colBroadcast := data offset
    if expectRow != rowBroadcast then
      some (.incorrectRow row col expectRow rowBroadcast)
    else if expectCol != colBroadcast then
      some (.incorrectCol row col expectRow colBroadcast)
    else none

/-- The `checkFragment` function (source lines 397-473).  It first rejects
any framebuffer smaller than 3x3 in either dimension, then scans rows
`0..height-2` and columns `0..width-2` in order, returning the first
per-texel error.  The format argument only feeds the
`getUintsPerFramebuffer` lookup (which lives in `subgroup_util.js`,
outside `src/`), so it is abstracted by the pair
`(uintsPerRow, uintsPerTexel)` it determines; the two `assert`s on
`broadcast` are preconditions stated on the theorems. -/
def checkFragment (data : Nat → Nat) (uintsPerRow uintsPerTexel : Nat)
    (width height broadcast : Nat) : Option FragError :=
  if width < 3 || height < 3 then
    some (.insufficientSize width height 3 3)
  else
    (List.range (height - 1)).findSome? fun row =>
      (List.range (width - 1)).findSome? fun col =>
        checkCell data uintsPerRow uintsPerTexel width height broadcast row col

/-- Oracle entry `kFuncVarCases.loop_body_uniform` (lines 1412-1423):
`loop { x = uniform_value[0]; continuing { break if uniform_cond } }`,
class `always`. -/
def loop_body_uniform : FuncVarCase :=
  ⟨.loopC (.assign (.uniformVal 0)) (some .uniformCond), .always⟩

/-- Oracle entry `kFuncVarCases.loop_body_nonuniform` (lines 1424-1435),
class `never`. -/
def loop_body_nonuniform : FuncVarCase :=
  ⟨.loopC (.assign (.nonuniformVal 0)) (some .uniformCond), .never⟩

/-- Oracle entry `kFuncVarCases.loop_body_nonuniform_cond`
(lines 1436-1448): `loop { x = uniform_value[0]; continuing
{ break if nonuniform_cond } }`, class `never`. -/
def loop_body_nonuniform_cond : FuncVarCase :=
  ⟨.loopC (.assign (.uniformVal 0)) (some .nonuniformCond), .never⟩

/-- Oracle entry `kFuncVarCases.unreachable_uniform` (lines 1218-1227):
`loop { break; x = uniform_value[0]; }`, class `init`. -/
def unreachable_uniform : FuncVarCase :=
  ⟨.loopC (.seq .brk (.assign (.uniformVal 0))) none, .init⟩

/-- Oracle entry `kFuncVarCases.unreachable_nonuniform`
(lines 1228-1237), class `init`. -/
def unreachable_nonuniform : FuncVarCase :=
  ⟨.loopC (.seq .brk (.assign (.nonuniformVal 0))) none, .init⟩

/-- Oracle entry `kFuncVarCases.loop_unreachable_continuing`
(lines 1449-1460): `loop { break; continuing { break if uniform_cond } }`,
class `init`. -/
def loop_unreachable_continuing : FuncVarCase :=
  ⟨.loopC .brk (some .uniformCond), .init⟩

/-- Oracle entry `kFuncVarCases.compound_assign_uniform`
(lines 1204-1210): `x += uniform_value[0];`, class `init`. -/
def compound_assign_uniform : FuncVarCase :=
  ⟨.compound (.uniformVal 0), .init⟩

/-- Oracle entry `kFuncVarCases.compound_assign_nonuniform`
(lines 1211-1217): `x -= nonuniform_value[0];`, class `never`. -/
def compound_assign_nonuniform : FuncVarCase :=
  ⟨.compound (.nonuniformVal 0), .never⟩

/-- Oracle entry `kFuncVarCases.if_unreachable_else_none`
(lines 1309-1318): `if uniform_cond { } else { return }`, class `init`. -/
def if_unreachable_else_none : FuncVarCase :=
  ⟨.ifs .uniformCond .skip .ret, .init⟩

/-- Oracle entry `kFuncVarCases.if_unreachable_else_uniform`
(lines 1319-1329): `if uniform_cond { x = uniform_value[0] } else
{ return }`, class `always`. -/
def if_unreachable_else_uniform : FuncVarCase :=
  ⟨.ifs .uniformCond (.assign (.uniformVal 0)) .ret, .always⟩

/-- Oracle entry `kFuncVarCases.if_unreachable_else_nonuniform`
(lines 1330-1340), class `never`. -/
def if_unreachable_else_nonuniform : FuncVarCase :=
  ⟨.ifs .uniformCond (.assign (.nonuniformVal 0)) .ret, .never⟩

/-- Oracle entry `kFuncVarCases.if_unreachable_then_none`
(lines 1341-1349): `if uniform_cond { return }` (no else written, embedded
with an empty else branch), class `init`. -/
def if_unreachable_then_none : FuncVarCase :=
  ⟨.ifs .uniformCond .ret .skip, .init⟩

/-- Oracle entry `kFuncVarCases.if_unreachable_then_uniform`
(lines 1350-1360): `if uniform_cond { return } else
{ x = uniform_value[0] }`, class `always`. -/
def if_unreachable_then_uniform : FuncVarCase :=
  ⟨.ifs .uniformCond .ret (.assign (.uniformVal 0)), .always⟩

/-- Oracle entry `kFuncVarCases.if_unreachable_then_nonuniform`
(lines 1361-1371), class `never`. -/
def if_unreachable_then_nonuniform : FuncVarCase :=
  ⟨.ifs .uniformCond .ret (.assign (.nonuniformVal 0)), .never⟩

/-- The `uniform` classification of oracle entry
`kFuncVarCases.partial_assignment_uniform` (lines 1879-1888):
`x.x = uniform_value[0].x;` on a two-member struct, class `init`. -/
def someMembersUniformClass : UniClass := .init

/-- The `uniform` classification of oracle entry
`kFuncVarCases.partial_assignment_nonuniform` (lines 1889-1898), class
`never`. -/
def someMembersNonuniformClass : UniClass := .never

/-- The `uniform` classification of oracle entry
`kFuncVarCases.partial_assignment_all_members_uniform` (lines 1899-1909):
`x.x = uniform_value[0].x; x.y = uniform_value[1].y;` assigning every
member of the two-member struct, class `init` — not `always`. -/
def allMembersUniformClass : UniClass := .init

/-- The `uniform` classification of oracle entry
`kFuncVarCases.partial_assignment_all_members_nonuniform`
(lines 1910-1920), class `never`. -/
def allMembersNonuniformClass : UniClass := .never

/-- One entry of the `kConditions` oracle table of the `basics` test: the
embedded condition generated by `generateCondition` and the table's
`expectation` field. -/
structure CondCase where
  cond : UExpr
  expectation : Bool

/-- Oracle entry `uniform_storage_ro` of `kConditions` (line 563) with its
condition `ro_buffer[0] == 0` from `generateCondition` (line 585):
`ro_buffer` is declared `var<storage, read>`. -/
def uniform_storage_ro : CondCase :=
  ⟨.binop (.storageRORead (.lit 0)) (.lit 0), true⟩

/-- Oracle entry `nonuniform_storage_rw` of `kConditions` (line 565) with
its condition `rw_buffer[0] == 0` from `generateCondition` (line 591):
`rw_buffer` is declared `var<storage, read_write>`. -/
def nonuniform_storage_rw : CondCase :=
  ⟨.binop (.storageRWRead (.lit 0)) (.lit 0), false⟩

theorem joinT_none_right (x : Option Tag) : joinT x none = x := by
  cases x <;> rfl

theorem joinT_none_left (x : Option Tag) : joinT none x = x := by
  cases x <;> rfl

/-- Boolean contents check of a `kPointerCases` entry whose final read is
`let test_val = *p`: the `contents` check of `generatePointerCheck`
succeeds when the observed tag is `uniform`. -/
def contentsOkPtr (c : PointerCase) (p : Nat) : Bool :=
  readPtrTag (runOps c.ops ptrInit) p == some .uniform

/-- Boolean contents check of a `kPointerCases` entry whose final read is
of the variable itself (`let test_val = func_scalar`). -/
def contentsOkVar (c : PointerCase) (x : Nat) : Bool :=
  readVarTag (runOps c.ops ptrInit) x == .uniform

/-- C1: under a uniform ambient execution uniformity the short-circuit
verdict is asymmetric in the operand positions: a collective call as the
left operand of `||`/`&&` is analyzed under the uniform ambient and
reports no violation, while a collective call as the right operand is a
violation whenever the left operand's tag is divergent; matches the
oracle entries `or_uniform_first_nonuniform`,
`or_uniform_second_nonuniform`, `and_uniform_first_nonuniform` and
`and_uniform_second_nonuniform`. -/
theorem shortCircuit_operand_asymmetry :
    (∀ a r : UExpr, collectiveFree a = true → collectiveFree r = true →
      exprViol (.scOr (.collective a) r) .uniform = false ∧
      exprViol (.scAnd (.collective a) r) .uniform = false) ∧
    (∀ l a : UExpr, uexprTag l = .divergent →
      exprViol (.scOr l (.collective a)) .uniform = true ∧
      exprViol (.scAnd l (.collective a)) .uniform = true) ∧
    (scVerdict or_uniform_first_nonuniform.expr = or_uniform_first_nonuniform.uniform ∧
     scVerdict or_uniform_second_nonuniform.expr = or_uniform_second_nonuniform.uniform ∧
     scVerdict and_uniform_first_nonuniform.expr = and_uniform_first_nonuniform.uniform ∧
     scVerdict and_uniform_second_nonuniform.expr = and_uniform_second_nonuniform.uniform) := by
  refine ⟨?_, ?_, rfl, rfl, rfl, rfl⟩
  · intro a r ha hr
    constructor <;>
      simp [exprViol, Tag.isDivergent, exprViol_of_collectiveFree a ha,
        exprViol_of_collectiveFree r hr]
  · intro l a hl
    constructor <;> simp [exprViol, hl, Tag.meet, Tag.isDivergent]

theorem shortCircuit_operand_asymmetry_witness :
    exprViol (.scOr (.collective (.lit 0)) .privateRead) .uniform = false ∧
    exprViol (.scOr .privateRead (.collective (.lit 0))) .uniform = true :=
  ⟨(shortCircuit_operand_asymmetry.1 (.lit 0) .privateRead rfl rfl).1,
   (shortCircuit_operand_asymmetry.2.1 .privateRead (.lit 0) rfl).1⟩

/-- C8: analyzing `a && a` (and `a || a`) yields the same uniformity tag
as analyzing `a` alone, for every expression `a`; matches the oracle
entries `or_uniform_uniform`, `or_nonuniform_nonuniform` and
`and_nonuniform_nonuniform` where the duplicated operand leaves the
verdict unchanged. -/
theorem shortCircuit_idempotent :
    (∀ a : UExpr,
      uexprTag (.scAnd a a) = uexprTag a ∧ uexprTag (.scOr a a) = uexprTag a) ∧
    (letIfVerdict or_uniform_uniform.expr = or_uniform_uniform.uniform ∧
     letIfVerdict or_nonuniform_nonuniform.expr = or_nonuniform_nonuniform.uniform ∧
     letIfVerdict and_nonuniform_nonuniform.expr = and_nonuniform_nonuniform.uniform) := by
  refine ⟨fun a => ⟨?_, ?_⟩, rfl, rfl, rfl⟩ <;>
    simp [uexprTag, Tag.meet_idem]

/-- C9: a collective operation guarded by `if` on a storage-buffer read at
the literal index 0 is permitted when the buffer is `var<storage, read>`
(the condition's tag is uniform) and is a violation when the buffer is
`var<storage, read_write>` (the condition's tag is divergent), for every
literal index; matches the `kConditions` entries `uniform_storage_ro` and
`nonuniform_storage_rw` with the conditions built by
`generateCondition`. -/
theorem storage_access_mode_guard :
    (∀ n : Nat,
      uexprTag (.storageRORead (.lit n)) = .uniform ∧
      uexprTag (.storageRWRead (.lit n)) = .divergent ∧
      ifGuardVerdict (.binop (.storageRORead (.lit n)) (.lit 0)) = true ∧
      ifGuardVerdict (.binop (.storageRWRead (.lit n)) (.lit 0)) = false) ∧
    (ifGuardVerdict uniform_storage_ro.cond = uniform_storage_ro.expectation ∧
     ifGuardVerdict nonuniform_storage_rw.cond = nonuniform_storage_rw.expectation) :=
  ⟨fun _ => ⟨rfl, rfl, rfl, rfl⟩, rfl, rfl⟩

/-- C2: for `loop { x = v } continuing { break if c }` followed by
`if x > 0 { textureSample }`, the verdict is determined jointly by the
assigned value's tag and the break condition's tag: uniform value and
uniform condition are permitted for every initializer, while a
non-uniform value or a non-uniform break condition each make the
post-loop read divergent and the guarded collective call a violation;
matches the oracle entries `loop_body_uniform`, `loop_body_nonuniform`
and `loop_body_nonuniform_cond` with `expectedUniformity`. -/
theorem loop_continuing_post_state :
    (∀ (i : InitKind) (n : Nat),
      verdictS i (.loopC (.assign (.uniformVal n)) (some .uniformCond)) = true ∧
      verdictS i (.loopC (.assign (.nonuniformVal n)) (some .uniformCond)) = false ∧
      verdictS i (.loopC (.assign (.uniformVal n)) (some .nonuniformCond)) = false) ∧
    (∀ i : InitKind,
      verdictS i loop_body_uniform.assignment =
        expectedUniformity loop_body_uniform.uniform i ∧
      verdictS i loop_body_nonuniform.assignment =
        expectedUniformity loop_body_nonuniform.uniform i ∧
      verdictS i loop_body_nonuniform_cond.assignment =
        expectedUniformity loop_body_nonuniform_cond.uniform i) := by
  constructor
  · intro i n
    cases i <;> exact ⟨rfl, rfl, rfl⟩
  · intro i
    cases i <;> exact ⟨rfl, rfl, rfl⟩

/-- C3: a write placed after an unconditional `break` or `return` is
statically unreachable and leaves the merged analysis state exactly as if
the write were absent: sequencing any statement after `brk`/`ret` changes
nothing, `loop { break; x = v }` analyzes identically to `loop { break }`
for both uniform and non-uniform `v`, and the verdict depends only on
`x`'s state before the loop; matches the oracle entries
`unreachable_uniform`, `unreachable_nonuniform` and
`loop_unreachable_continuing`, all of class `init`. -/
theorem dead_write_after_break :
    (∀ (s2 : FStmt) (st exec : Tag),
      analyzeS (.seq .brk s2) st exec = analyzeS .brk st exec ∧
      analyzeS (.seq .ret s2) st exec = analyzeS .ret st exec) ∧
    (∀ (v : VVal) (st exec : Tag),
      analyzeS (.loopC (.seq .brk (.assign v)) none) st exec =
        analyzeS (.loopC .brk none) st exec) ∧
    (∀ i : InitKind,
      verdictS i unreachable_uniform.assignment =
        expectedUniformity unreachable_uniform.uniform i ∧
      verdictS i unreachable_nonuniform.assignment =
        expectedUniformity unreachable_nonuniform.uniform i ∧
      verdictS i loop_unreachable_continuing.assignment =
        expectedUniformity loop_unreachable_continuing.uniform i ∧
      verdictS i unreachable_uniform.assignment = verdictS i (.loopC .brk none) ∧
      verdictS i unreachable_nonuniform.assignment = verdictS i (.loopC .brk none)) := by
  refine ⟨fun s2 st exec => ⟨rfl, rfl⟩, ?_, ?_⟩
  · intro v st exec
    cases st <;> cases exec <;> rfl
  · intro i
    cases i <;> exact ⟨rfl, rfl, rfl, rfl, rfl⟩

/-- C4: a compound assignment `x op= e` incorporates the prior value of
`x`: with `e` uniform the state of `x` afterwards equals the state going
in (uniform iff it was already uniform, in particular for the
default-initialized case), and with `e` divergent the state afterwards is
divergent regardless of the prior state; matches the oracle entries
`compound_assign_uniform` (class `init`) and `compound_assign_nonuniform`
(class `never`) with `expectedUniformity`. -/
theorem compound_assign_incorporates_prior :
    (∀ (st exec : Tag) (n : Nat),
      analyzeS (.compound (.uniformVal n)) st exec = ⟨some st, none, false⟩ ∧
      analyzeS (.compound (.nonuniformVal n)) st exec = ⟨some .divergent, none, false⟩) ∧
    (∀ i : InitKind,
      verdictS i compound_assign_uniform.assignment =
        expectedUniformity compound_assign_uniform.uniform i ∧
      verdictS i compound_assign_nonuniform.assignment =
        expectedUniformity compound_assign_nonuniform.uniform i) := by
  constructor
  · intro st exec n
    cases st <;> exact ⟨rfl, rfl⟩
  · intro i
    cases i <;> exact ⟨rfl, rfl⟩

/-- C5: in `if uniform_cond { T } else { E }` where exactly one branch
ends in an unconditional `return`, the state after the construct is the
other branch's exit state unmodified, for any branch body; concretely
`if uniform_cond { x = uniform_value[0] } else { return }` leaves `x`
uniform regardless of the initializer, the non-uniform assigned value
leaves `x` divergent, and the mirror-image constructs with `return` in
the then-branch behave identically; matches the oracle entries
`if_unreachable_else_none`/`uniform`/`nonuniform` and
`if_unreachable_then_none`/`uniform`/`nonuniform`. -/
theorem if_unreachable_branch_join :
    (∀ (T : FStmt) (st exec : Tag),
      (analyzeS (.ifs .uniformCond T .ret) st exec).normal =
        (analyzeS T st exec).normal) ∧
    (∀ (E : FStmt) (st exec : Tag),
      (analyzeS (.ifs .uniformCond .ret E) st exec).normal =
        (analyzeS E st exec).normal) ∧
    (∀ i : InitKind,
      verdictS i if_unreachable_else_none.assignment =
        expectedUniformity if_unreachable_else_none.uniform i ∧
      verdictS i if_unreachable_else_uniform.assignment =
        expectedUniformity if_unreachable_else_uniform.uniform i ∧
      verdictS i if_unreachable_else_nonuniform.assignment =
        expectedUniformity if_unreachable_else_nonuniform.uniform i ∧
      verdictS i if_unreachable_then_none.assignment =
        expectedUniformity if_unreachable_then_none.uniform i ∧
      verdictS i if_unreachable_then_uniform.assignment =
        expectedUniformity if_unreachable_then_uniform.uniform i ∧
      verdictS i if_unreachable_then_nonuniform.assignment =
        expectedUniformity if_unreachable_then_nonuniform.uniform i) := by
  refine ⟨?_, ?_, ?_⟩
  · intro T st exec
    show (joinT (analyzeS T st (Tag.meet exec (SCond.tag .uniformCond st))).normal
      (analyzeS .ret st (Tag.meet exec (SCond.tag .uniformCond st))).normal) = _
    rw [show SCond.tag .uniformCond st = .uniform from rfl, Tag.meet_uniform_right]
    exact joinT_none_right _
  · intro E st exec
    show (joinT (analyzeS .ret st (Tag.meet exec (SCond.tag .uniformCond st))).normal
      (analyzeS E st (Tag.meet exec (SCond.tag .uniformCond st))).normal) = _
    rw [show SCond.tag .uniformCond st = .uniform from rfl, Tag.meet_uniform_right]
    exact joinT_none_left _
  · intro i
    cases i <;> exact ⟨rfl, rfl, rfl, rfl, rfl, rfl⟩

/-- C6: an assignment through any alias of an address class updates the
contents tag observed through every other alias of that class and through
the variable itself, and a dereference observes the tag of the last write
to the class preceding it in program order; matches the oracle entries
`contents_scalar_alias_nonuniform3`/`nonuniform4`/`nonuniform5` (a
divergent write observed through a different alias or the variable) and
`contents_scalar_uniform2`/`uniform3` (a divergent write overwritten by a
uniform one before any read). -/
theorem pointer_alias_contents :
    (∀ (s : AliasState) (p q x : Nat) (t : Tag),
      s.env p = some x → s.env q = some x →
      readPtrTag (applyOp (.writeThrough p t) s) q = some t ∧
      readVarTag (applyOp (.writeThrough p t) s) x = t) ∧
    (∀ (w : POp) (ws : List POp) (s : AliasState) (c : Nat) (t : Tag),
      writeTarget s w = some c → writeTag w = some t →
      (∀ op ∈ ws, op.isWrite = true) →
      (∀ op ∈ ws, writeTarget s op ≠ some c) →
      (runOps (w :: ws) s).store c = t) ∧
    (contentsOkPtr contents_scalar_uniform2 1 = contents_scalar_uniform2.uniform ∧
     contentsOkPtr contents_scalar_uniform3 1 = contents_scalar_uniform3.uniform ∧
     contentsOkPtr contents_scalar_alias_nonuniform3 2 =
       contents_scalar_alias_nonuniform3.uniform ∧
     contentsOkPtr contents_scalar_alias_nonuniform4 1 =
       contents_scalar_alias_nonuniform4.uniform ∧
     contentsOkVar contents_scalar_alias_nonuniform5 0 =
       contents_scalar_alias_nonuniform5.uniform) := by
  refine ⟨?_, ?_, rfl, rfl, rfl, rfl, rfl⟩
  · intro s p q x t hp hq
    constructor
    · simp [readPtrTag, applyOp, hp, hq]
    · simp [readVarTag, applyOp, hp]
  · intro w ws s c t hw ht hws hns
    have hwrite : w.isWrite = true := by
      cases w <;> simp [writeTag] at ht <;> rfl
    have henv : (applyOp w s).env = s.env := applyOp_write_env w s hwrite
    have hstore : (applyOp w s).store c = t := by
      cases w with
      | takeAddr p x => simp [writeTag] at ht
      | copyPtr q p => simp [writeTag] at ht
      | writeVar x t2 =>
          simp only [writeTarget, Option.some.injEq] at hw
          simp only [writeTag, Option.some.injEq] at ht
          simp [applyOp, hw, ht]
      | writeThrough p t2 =>
          simp only [writeTag, Option.some.injEq] at ht
          simp only [writeTarget] at hw
          simp [applyOp, hw, ht]
    have hns2 : ∀ op ∈ ws, writeTarget (applyOp w s) op ≠ some c := by
      intro op hmem
      have : writeTarget (applyOp w s) op = writeTarget s op := by
        cases op with
        | takeAddr p x => rfl
        | copyPtr q p => rfl
        | writeVar x t2 => rfl
        | writeThrough p t2 => simp [writeTarget, henv]
      rw [this]
      exact hns op hmem
    have hframe := runOps_writes_frame ws (applyOp w s) c hws hns2
    have hrw : runOps (w :: ws) s = runOps ws (applyOp w s) := by
      rw [runOps, List.foldl_cons]
      rfl
    rw [hrw, hframe.1, hstore]

theorem pointer_alias_contents_witness :
    readPtrTag
      (applyOp (.writeThrough 1 .divergent)
        (runOps [POp.takeAddr 1 0, POp.copyPtr 2 1] ptrInit)) 2 =
      some .divergent ∧
    (runOps [POp.writeVar 0 Tag.divergent, POp.writeVar 0 Tag.uniform] ptrInit).store 0 =
      Tag.uniform :=
  ⟨(pointer_alias_contents.1 (runOps [POp.takeAddr 1 0, POp.copyPtr 2 1] ptrInit)
      1 2 0 .divergent (by decide) (by decide)).1,
   pointer_alias_contents.2.1 (POp.writeVar 0 Tag.uniform) [] _ 0 Tag.uniform
     rfl rfl (by intro op h; cases h) (by intro op h; cases h)⟩

/-- C7 counterexample: the oracle classifies
`partial_assignment_all_members_uniform` — `x.x = uniform_value[0].x;
x.y = uniform_value[1].y;`, assigning every member of the two-member
struct a uniform value — as class `init`, so with the non-uniform
initializer `= nonuniform_value[3]` the expected verdict is a violation:
`x` is not reported fully uniform independently of how it was
initialized. -/
theorem all_members_uniform_depends_on_init :
    expectedUniformity allMembersUniformClass .nonuniform = false := rfl

/-- C7 amended: member-wise assignment of a struct variable is
`init`-class whether some or all members are assigned: after uniform
writes to every member, `x` is reported fully uniform exactly when the
state of `x` going in was already uniform (no initializer or a uniform
one), the same classification as assigning only some members, and any
divergent member write makes `x` divergent for every initializer;
matches the oracle entries `partial_assignment_uniform`,
`partial_assignment_nonuniform`,
`partial_assignment_all_members_uniform` and
`partial_assignment_all_members_nonuniform`. -/
theorem member_assignment_init_class :
    ∀ i : InitKind,
      expectedUniformity someMembersUniformClass i =
        expectedUniformity allMembersUniformClass i ∧
      expectedUniformity allMembersUniformClass i = (initTag i == Tag.uniform) ∧
      expectedUniformity someMembersNonuniformClass i = false ∧
      expectedUniformity allMembersNonuniformClass i = false := by
  intro i
  cases i <;> exact ⟨rfl, rfl, rfl, rfl⟩

theorem checkFragment_insufficient (data : Nat → Nat)
    (uintsPerRow uintsPerTexel width height broadcast : Nat)
    (h : width < 3 ∨ height < 3) :
    checkFragment data uintsPerRow uintsPerTexel width height broadcast =
      some (.insufficientSize width height 3 3) := by
  rw [checkFragment, if_pos]
  rcases h with h2 | h2 <;> simp [h2]

/-- C10: `checkFragment` returns the `Insufficient framebuffer size`
error naming the minimum `[3w x 3h]` whenever the width or the height is
below 3, for every data buffer, format (abstracted by the uint strides it
determines) and broadcast id; the result then does not depend on the
pixel data at all, and a non-error result is only possible when both
dimensions are at least 3. -/
theorem checkFragment_minimum_size :
    (∀ (data : Nat → Nat) (upr upt w h b : Nat), w < 3 ∨ h < 3 →
      checkFragment data upr upt w h b = some (.insufficientSize w h 3 3)) ∧
    (∀ (d1 d2 : Nat → Nat) (upr upt w h b : Nat), w < 3 ∨ h < 3 →
      checkFragment d1 upr upt w h b = checkFragment d2 upr upt w h b) ∧
    (∀ (data : Nat → Nat) (upr upt w h b : Nat),
      checkFragment data upr upt w h b = none → 3 ≤ w ∧ 3 ≤ h) := by
  refine ⟨checkFragment_insufficient, ?_, ?_⟩
  · intro d1 d2 upr upt w h b hwh
    rw [checkFragment_insufficient d1 upr upt w h b hwh,
      checkFragment_insufficient d2 upr upt w h b hwh]
  · intro data upr upt w h b hnone
    constructor
    · by_contra hw
      rw [checkFragment_insufficient data upr upt w h b
        (Or.inl (Nat.lt_of_not_le hw))] at hnone
      exact Option.noConfusion hnone
    · by_contra hh
      rw [checkFragment_insufficient data upr upt w h b
        (Or.inr (Nat.lt_of_not_le hh))] at hnone
      exact Option.noConfusion hnone

theorem checkFragment_minimum_size_witness :
    checkFragment (fun _ => 0) 4 4 2 3 0 = some (.insufficientSize 2 3 3 3) :=
  checkFragment_minimum_size.1 (fun _ => 0) 4 4 2 3 0 (Or.inl (by decide))
